import Mathlib

/-!
Shallow embedding of `clap_derive/src/utils/ty.rs`: the structural type
classifier (`Ty::from_syn_ty`), the innermost-element extractor
(`inner_type`), and the syntactic helper predicates, over an embedding of
the fragment of the `syn` type grammar those functions inspect.

Spans (`Sp`) are dropped: they carry source locations only and every claim
is about the classification kind, which `Sp` merely wraps.

The `unstable-v5` Cargo feature selects between two `get_vec_ty`
implementations; the embedding keeps both and threads the selection as an
explicit `Bool` argument (`true` = the `unstable-v5` variant).
-/

mutual

/-- The fragment of `syn::Type` the classifier inspects: `Type::Path`
(with whether a `qself` is present, whether a leading `::` is present, and
the segment list), `Type::Group`, `Type::Tuple`, and a catch-all for every
other `syn::Type` constructor (references, slices, ...), which the code
treats uniformly via its `_` match arms. -/
inductive SynType : Type where
  | path (qself : Bool) (leading_colon : Bool) (segments : List PathSegment) : SynType
  | group (elem : SynType) : SynType
  | tuple (elems : List SynType) : SynType
  | other : SynType

inductive PathSegment : Type where
  | mk (ident : String) (arguments : PathArguments) : PathSegment

inductive PathArguments : Type where
  | none : PathArguments
  | angleBracketed (args : List GenericArgument) : PathArguments
  | parenthesized : PathArguments

inductive GenericArgument : Type where
  | type (ty : SynType) : GenericArgument
  | other : GenericArgument

end

def PathSegment.ident : PathSegment → String
  | PathSegment.mk i _ => i

def PathSegment.arguments : PathSegment → PathArguments
  | PathSegment.mk _ a => a

/-- The `Ty` enum of `ty.rs`. -/
inductive Ty : Type where
  | Unit
  | Vec
  | VecVec
  | Option
  | OptionOption
  | OptionVec
  | OptionVecVec
  | Other
deriving DecidableEq, Repr

/-- Embeds `only_one`: `iter.next().filter(|_| iter.next().is_none())` — the sole
element of a one-element sequence, `None` otherwise. -/
def only_one {α : Type} : List α → Option α
  | [] => Option.none
  | x :: rest => if rest.isEmpty then some x else Option.none

/-- Embeds `only_last_segment`: strip `Type::Group` nodes repeatedly, then require
a `Type::Path` with no qself and no leading colon and return its only
segment (via `only_one`). -/
def only_last_segment : SynType → Option PathSegment
  | SynType.group elem => only_last_segment elem
  | SynType.path false false segments => only_one segments
  | _ => Option.none

/-- Embeds `subty_if`: the single angle-bracketed generic type argument of the
only path segment, provided that segment satisfies `f`. -/
def subty_if (ty : SynType) (f : PathSegment → Bool) : Option SynType :=
  ((only_last_segment ty).filter f).bind fun segment =>
    match segment.arguments with
    | PathArguments.angleBracketed args =>
      (only_one args).bind fun genneric =>
        match genneric with
        | GenericArgument.type t => some t
        | _ => Option.none
    | _ => Option.none

/-- Embeds `subty_if_name`. -/
def subty_if_name (ty : SynType) (name : String) : Option SynType :=
  subty_if ty fun seg => seg.ident == name

/-- Embeds `sub_type`. -/
def sub_type (ty : SynType) : Option SynType :=
  subty_if ty fun _ => true

/-- Embeds `is_simple_ty`. -/
def is_simple_ty (ty : SynType) (name : String) : Bool :=
  ((only_last_segment ty).map fun segment =>
    match segment.arguments with
    | PathArguments.none => segment.ident == name
    | _ => false).getD false

/-- Embeds `is_generic_ty`. -/
def is_generic_ty (ty : SynType) (name : String) : Bool :=
  (subty_if_name ty name).isSome

/-- Embeds `is_unit_ty`. -/
def is_unit_ty : SynType → Bool
  | SynType.tuple elems => elems.isEmpty
  | _ => false

/-- Embeds `get_vec_ty` under `#[cfg(feature = "unstable-v5")]`. -/
def get_vec_ty_v5 (ty : SynType) (vec_ty vecvec_ty : Ty) : Option Ty :=
  (subty_if_name ty "Vec").map fun subty =>
    if is_generic_ty subty "Vec" then vecvec_ty else vec_ty

/-- Embeds `get_vec_ty` under `#[cfg(not(feature = "unstable-v5"))]`: ignores its
`_vecvec_ty` argument. -/
def get_vec_ty_default (ty : SynType) (vec_ty : Ty) (_vecvec_ty : Ty) : Option Ty :=
  if is_generic_ty ty "Vec" then some vec_ty else Option.none

/-- Embeds `get_vec_ty` with the feature selection made explicit. -/
def get_vec_ty (unstable_v5 : Bool) (ty : SynType) (vec_ty vecvec_ty : Ty) : Option Ty :=
  if unstable_v5 then get_vec_ty_v5 ty vec_ty vecvec_ty
  else get_vec_ty_default ty vec_ty vecvec_ty

/-- Embeds `Ty::from_syn_ty` (span dropped). -/
def Ty.from_syn_ty (unstable_v5 : Bool) (ty : SynType) : Ty :=
  if is_unit_ty ty then Ty.Unit
  else
    match get_vec_ty unstable_v5 ty Ty.Vec Ty.VecVec with
    | some vt => vt
    | Option.none =>
      match subty_if_name ty "Option" with
      | some subty =>
        if is_generic_ty subty "Option" then Ty.OptionOption
        else
          match get_vec_ty unstable_v5 subty Ty.OptionVec Ty.OptionVecVec with
          | some vt => vt
          | Option.none => Ty.Option
      | Option.none => Ty.Other

/-- Embeds `Ty::as_str`. -/
def Ty.as_str : Ty → String
  | Ty.Unit => "()"
  | Ty.Vec => "Vec<T>"
  | Ty.Option => "Option<T>"
  | Ty.OptionOption => "Option<Option<T>>"
  | Ty.OptionVec => "Option<Vec<T>>"
  | Ty.VecVec => "Vec<Vec<T>>"
  | Ty.OptionVecVec => "Option<Vec<Vec<T>>>"
  | Ty.Other => "...other..."

/-- Embeds `Ty::is_other`. -/
def Ty.is_other : Ty → Bool
  | Ty.Other => true
  | _ => false

/-- Embeds `inner_type`. -/
def inner_type (unstable_v5 : Bool) (field_ty : SynType) : SynType :=
  match Ty.from_syn_ty unstable_v5 field_ty with
  | Ty.Vec | Ty.Option => (sub_type field_ty).getD field_ty
  | Ty.OptionOption | Ty.OptionVec | Ty.VecVec =>
    ((sub_type field_ty).bind sub_type).getD field_ty
  | Ty.OptionVecVec =>
    (((sub_type field_ty).bind sub_type).bind sub_type).getD field_ty
  | _ => field_ty

/-! Constructions used to state the claims: a single-segment unqualified
generic path `name<x>`, iterated grouping, and sample leaf types. -/

/-- The canonical one-argument generic path `name<x>`. -/
def wrap (name : String) (x : SynType) : SynType :=
  SynType.path false false [PathSegment.mk name (PathArguments.angleBracketed [GenericArgument.type x])]

/-- Builds `Option<x>`. -/
def oWrap (x : SynType) : SynType := wrap "Option" x

/-- Builds `Vec<x>`. -/
def rWrap (x : SynType) : SynType := wrap "Vec" x

/-- Wraps `n` grouping nodes around `t`. -/
def groupN : Nat → SynType → SynType
  | 0, t => t
  | n + 1, t => SynType.group (groupN n t)

/-- The bare path `i32`: a plain leaf type, no generic arguments. -/
def i32ex : SynType :=
  SynType.path false false [PathSegment.mk "i32" PathArguments.none]

/-- The group-stripping prelude of `only_last_segment`, as a standalone
function, used to state characterization theorems. -/
def stripGroups : SynType → SynType
  | SynType.group elem => stripGroups elem
  | t => t

/-! Helper lemmas shared by the claim theorems. -/

theorem aux_isSome_false {α : Type} {o : Option α} (h : o.isSome = false) :
    o = Option.none := by
  cases o with
  | none => rfl
  | some a => simp [Option.isSome] at h

theorem aux_only_one_eq_some {α : Type} (l : List α) (x : α) :
    only_one l = some x ↔ l = [x] := by
  cases l with
  | nil => simp [only_one]
  | cons a rest =>
    cases rest with
    | nil => simp [only_one]
    | cons b rest2 => simp [only_one]

theorem aux_only_last_segment_group (t : SynType) :
    only_last_segment (SynType.group t) = only_last_segment t := rfl

theorem aux_subty_if_name_group (t : SynType) (name : String) :
    subty_if_name (SynType.group t) name = subty_if_name t name := rfl

theorem aux_get_vec_ty_group (cfg : Bool) (t : SynType) (a b : Ty) :
    get_vec_ty cfg (SynType.group t) a b = get_vec_ty cfg t a b := by
  cases cfg <;> rfl

theorem aux_is_unit_ty_group (t : SynType) :
    is_unit_ty (SynType.group t) = false := rfl

theorem aux_subty_if_name_wrap (n m : String) (x : SynType) :
    subty_if_name (wrap n x) m = if n == m then some x else Option.none := by
  unfold subty_if_name subty_if wrap only_last_segment only_one
  cases h : n == m <;>
    simp [Option.filter, PathSegment.ident, PathSegment.arguments, h, only_one]

theorem aux_sub_type_wrap (n : String) (x : SynType) :
    sub_type (wrap n x) = some x := rfl

theorem aux_is_generic_ty_wrap (n m : String) (x : SynType) :
    is_generic_ty (wrap n x) m = (n == m) := by
  rw [is_generic_ty, aux_subty_if_name_wrap]
  cases h : n == m <;> simp [h]

theorem aux_get_vec_ty_eq_none (cfg : Bool) (t : SynType) (a b : Ty)
    (h : subty_if_name t "Vec" = Option.none) :
    get_vec_ty cfg t a b = Option.none := by
  cases cfg <;>
    simp [get_vec_ty, get_vec_ty_v5, get_vec_ty_default, is_generic_ty, h]

theorem aux_get_vec_ty_eq_some (cfg : Bool) (t s : SynType) (a b : Ty)
    (h : subty_if_name t "Vec" = some s) :
    get_vec_ty cfg t a b =
      some (if cfg && is_generic_ty s "Vec" then b else a) := by
  cases cfg <;>
    simp [get_vec_ty, get_vec_ty_v5, get_vec_ty_default, is_generic_ty, h]

theorem aux_subty_if_name_oWrap_opt (x : SynType) :
    subty_if_name (oWrap x) "Option" = some x := rfl

theorem aux_subty_if_name_oWrap_vec (x : SynType) :
    subty_if_name (oWrap x) "Vec" = Option.none := rfl

theorem aux_subty_if_name_rWrap_vec (x : SynType) :
    subty_if_name (rWrap x) "Vec" = some x := rfl

theorem aux_subty_if_name_rWrap_opt (x : SynType) :
    subty_if_name (rWrap x) "Option" = Option.none := rfl

theorem aux_is_unit_ty_wrap (n : String) (x : SynType) :
    is_unit_ty (wrap n x) = false := rfl

theorem aux_is_unit_ty_oWrap (x : SynType) :
    is_unit_ty (oWrap x) = false := rfl

theorem aux_is_unit_ty_rWrap (x : SynType) :
    is_unit_ty (rWrap x) = false := rfl

/-- Evaluating the classifier on a type that fails the unit check and both
named-wrapper tests: the fall-through arm yields `Ty.Other`. -/
theorem aux_classify_other (cfg : Bool) (t : SynType)
    (h1 : is_unit_ty t = false)
    (h2 : subty_if_name t "Vec" = Option.none)
    (h3 : subty_if_name t "Option" = Option.none) :
    Ty.from_syn_ty cfg t = Ty.Other := by
  simp [Ty.from_syn_ty, h1, aux_get_vec_ty_eq_none cfg t _ _ h2, h3]

/-- Evaluating the classifier on `Option<x>` where `x` matches neither
wrapper name. -/
theorem aux_classify_oWrap (cfg : Bool) (x : SynType)
    (ho : is_generic_ty x "Option" = false)
    (hv : is_generic_ty x "Vec" = false) :
    Ty.from_syn_ty cfg (oWrap x) = Ty.Option := by
  have hvn : subty_if_name x "Vec" = Option.none := aux_isSome_false hv
  simp [Ty.from_syn_ty, aux_is_unit_ty_oWrap, aux_is_unit_ty_rWrap,
    aux_get_vec_ty_eq_none cfg (oWrap x) _ _ (aux_subty_if_name_oWrap_vec x),
    aux_subty_if_name_oWrap_opt, ho,
    aux_get_vec_ty_eq_none cfg x _ _ hvn]

/-- Evaluating the classifier on `Option<Option<x>>`. -/
theorem aux_classify_oWrap_oWrap (cfg : Bool) (x : SynType) :
    Ty.from_syn_ty cfg (oWrap (oWrap x)) = Ty.OptionOption := by
  have hgo : is_generic_ty (oWrap x) "Option" = true := by
    simp [is_generic_ty, aux_subty_if_name_oWrap_opt]
  simp [Ty.from_syn_ty, aux_is_unit_ty_oWrap, aux_is_unit_ty_rWrap,
    aux_get_vec_ty_eq_none cfg (oWrap (oWrap x)) _ _ (aux_subty_if_name_oWrap_vec _),
    aux_subty_if_name_oWrap_opt, hgo]

/-- Evaluating the classifier on `Option<Vec<x>>` with `x` not `Vec`-shaped. -/
theorem aux_classify_oWrap_rWrap (cfg : Bool) (x : SynType)
    (hv : is_generic_ty x "Vec" = false) :
    Ty.from_syn_ty cfg (oWrap (rWrap x)) = Ty.OptionVec := by
  have hgo : is_generic_ty (rWrap x) "Option" = false := by
    simp [is_generic_ty, aux_subty_if_name_rWrap_opt]
  simp [Ty.from_syn_ty, aux_is_unit_ty_oWrap, aux_is_unit_ty_rWrap,
    aux_get_vec_ty_eq_none cfg (oWrap (rWrap x)) _ _ (aux_subty_if_name_oWrap_vec _),
    aux_subty_if_name_oWrap_opt, hgo,
    aux_get_vec_ty_eq_some cfg (rWrap x) x _ _ (aux_subty_if_name_rWrap_vec x), hv]

/-- Evaluating the classifier on `Option<Vec<Vec<x>>>`: the two build
configurations disagree. -/
theorem aux_classify_oWrap_rWrap_rWrap (cfg : Bool) (x : SynType) :
    Ty.from_syn_ty cfg (oWrap (rWrap (rWrap x))) =
      if cfg then Ty.OptionVecVec else Ty.OptionVec := by
  have hgo : is_generic_ty (rWrap (rWrap x)) "Option" = false := by
    simp [is_generic_ty, aux_subty_if_name_rWrap_opt]
  have hgv : is_generic_ty (rWrap x) "Vec" = true := by
    simp [is_generic_ty, aux_subty_if_name_rWrap_vec]
  cases cfg <;>
    simp [Ty.from_syn_ty, aux_is_unit_ty_oWrap, aux_is_unit_ty_rWrap,
      aux_get_vec_ty_eq_none _ (oWrap (rWrap (rWrap x))) _ _ (aux_subty_if_name_oWrap_vec _),
      aux_subty_if_name_oWrap_opt, hgo,
      aux_get_vec_ty_eq_some _ (rWrap (rWrap x)) (rWrap x) _ _ (aux_subty_if_name_rWrap_vec _), hgv]

/-- Evaluating the classifier on `Vec<x>` with `x` not `Vec`-shaped. -/
theorem aux_classify_rWrap (cfg : Bool) (x : SynType)
    (hv : is_generic_ty x "Vec" = false) :
    Ty.from_syn_ty cfg (rWrap x) = Ty.Vec := by
  simp [Ty.from_syn_ty, aux_is_unit_ty_oWrap, aux_is_unit_ty_rWrap,
    aux_get_vec_ty_eq_some cfg (rWrap x) x _ _ (aux_subty_if_name_rWrap_vec x), hv]

/-- Evaluating the classifier on `Vec<Vec<x>>`: the two build
configurations disagree. -/
theorem aux_classify_rWrap_rWrap (cfg : Bool) (x : SynType) :
    Ty.from_syn_ty cfg (rWrap (rWrap x)) =
      if cfg then Ty.VecVec else Ty.Vec := by
  have hgv : is_generic_ty (rWrap x) "Vec" = true := by
    simp [is_generic_ty, aux_subty_if_name_rWrap_vec]
  cases cfg <;>
    simp [Ty.from_syn_ty, aux_is_unit_ty_oWrap, aux_is_unit_ty_rWrap,
      aux_get_vec_ty_eq_some _ (rWrap (rWrap x)) (rWrap x) _ _ (aux_subty_if_name_rWrap_vec _), hgv]

/-- Classification looks through one grouping node whenever the input is
not syntactically the empty tuple (the unit check itself does not strip
groups). -/
theorem aux_from_syn_ty_group (cfg : Bool) (t : SynType)
    (h : is_unit_ty t = false) :
    Ty.from_syn_ty cfg (SynType.group t) = Ty.from_syn_ty cfg t := by
  rw [Ty.from_syn_ty, Ty.from_syn_ty, aux_is_unit_ty_group, h,
    aux_get_vec_ty_group, aux_subty_if_name_group]

theorem aux_is_unit_ty_groupN (n : Nat) (t : SynType) (h : is_unit_ty t = false) :
    is_unit_ty (groupN n t) = false := by
  cases n with
  | zero => exact h
  | succ k => rfl

theorem aux_from_syn_ty_groupN (cfg : Bool) (n : Nat) (t : SynType)
    (h : is_unit_ty t = false) :
    Ty.from_syn_ty cfg (groupN n t) = Ty.from_syn_ty cfg t := by
  induction n with
  | zero => rfl
  | succ k ih =>
    rw [groupN, aux_from_syn_ty_group cfg (groupN k t) (aux_is_unit_ty_groupN k t h), ih]

/-- How the default (`not(feature = "unstable-v5")`) classification relates
to the `unstable-v5` one: the double-`Vec` kinds collapse to their
single-`Vec` counterparts, everything else agrees. -/
def collapseV5 : Ty → Ty
  | Ty.VecVec => Ty.Vec
  | Ty.OptionVecVec => Ty.OptionVec
  | t => t

theorem aux_default_eq_collapse_v5 (t : SynType) :
    Ty.from_syn_ty false t = collapseV5 (Ty.from_syn_ty true t) := by
  rw [Ty.from_syn_ty, Ty.from_syn_ty]
  by_cases hu : is_unit_ty t = true
  · simp [hu, collapseV5]
  · simp only [hu, if_false]
    cases hv : subty_if_name t "Vec" with
    | some s =>
      rw [aux_get_vec_ty_eq_some false t s _ _ hv,
        aux_get_vec_ty_eq_some true t s _ _ hv]
      cases hg : is_generic_ty s "Vec" <;> simp [hg, collapseV5]
    | none =>
      rw [aux_get_vec_ty_eq_none false t _ _ hv, aux_get_vec_ty_eq_none true t _ _ hv]
      cases ho : subty_if_name t "Option" with
      | none => simp [collapseV5]
      | some subty =>
        simp only
        by_cases hoo : is_generic_ty subty "Option" = true
        · simp [hoo, collapseV5]
        · simp only [hoo, if_false]
          cases hv2 : subty_if_name subty "Vec" with
          | some s2 =>
            rw [aux_get_vec_ty_eq_some false subty s2 _ _ hv2,
              aux_get_vec_ty_eq_some true subty s2 _ _ hv2]
            cases hg2 : is_generic_ty s2 "Vec" <;> simp [hg2, collapseV5]
          | none =>
            rw [aux_get_vec_ty_eq_none false subty _ _ hv2,
              aux_get_vec_ty_eq_none true subty _ _ hv2]
            simp [collapseV5]

/-- Lemma: `only_last_segment` succeeds exactly on a group-stripped single-segment
path with no qself and no leading colon. -/
theorem aux_only_last_segment_iff :
    ∀ (ty : SynType) (seg : PathSegment),
      only_last_segment ty = some seg ↔
        stripGroups ty = SynType.path false false [seg]
  | SynType.group e, seg => by
    rw [aux_only_last_segment_group, show stripGroups (SynType.group e) = stripGroups e from rfl]
    exact aux_only_last_segment_iff e seg
  | SynType.path q l segs, seg => by
    cases q <;> cases l <;>
      simp [only_last_segment, stripGroups, aux_only_one_eq_some]
  | SynType.tuple es, seg => by simp [only_last_segment, stripGroups]
  | SynType.other, seg => by simp [only_last_segment, stripGroups]

/-- What `subty_if` matches: the only segment passes the filter and carries
angle-bracketed arguments that are exactly one type. -/
theorem aux_subty_if_iff (ty : SynType) (f : PathSegment → Bool) (sub : SynType) :
    subty_if ty f = some sub ↔
      ∃ seg : PathSegment, only_last_segment ty = some seg ∧ f seg = true ∧
        seg.arguments = PathArguments.angleBracketed [GenericArgument.type sub] := by
  unfold subty_if
  cases o : only_last_segment ty with
  | none => simp [Option.filter]
  | some seg =>
    cases hf : f seg with
    | false => simp [Option.filter, hf]
    | true =>
      simp only [Option.filter, hf, Option.bind_some, Option.some.injEq]
      cases seg with
      | mk id args =>
        cases args with
        | none => simp [PathSegment.arguments, hf]
        | parenthesized => simp [PathSegment.arguments, hf]
        | angleBracketed gargs =>
          cases gargs with
          | nil => simp [PathSegment.arguments, only_one, hf]
          | cons a rest =>
            cases rest with
            | cons b rest2 => simp [PathSegment.arguments, only_one, hf]
            | nil =>
              cases a with
              | type t => simp [PathSegment.arguments, only_one, hf]
              | other => simp [PathSegment.arguments, only_one, hf]

/-- Lemma: `is_unit_ty` holds exactly on the canonical empty tuple. -/
theorem aux_is_unit_ty_iff (t : SynType) :
    is_unit_ty t = true ↔ t = SynType.tuple [] := by
  cases t with
  | path q l segs => simp [is_unit_ty]
  | group e => simp [is_unit_ty]
  | tuple es => cases es <;> simp [is_unit_ty]
  | other => simp [is_unit_ty]

theorem aux_get_vec_ty_mem (cfg : Bool) (t : SynType) (a b vt : Ty)
    (h : get_vec_ty cfg t a b = some vt) : vt = a ∨ vt = b := by
  cases cfg with
  | false =>
    rw [get_vec_ty] at h
    simp only [Bool.false_eq_true, if_false, get_vec_ty_default] at h
    by_cases hg : is_generic_ty t "Vec" = true
    · rw [hg] at h
      simp at h
      exact Or.inl h.symm
    · simp [hg] at h
  | true =>
    rw [get_vec_ty] at h
    simp only [if_true, get_vec_ty_v5, Option.map_eq_some'] at h
    obtain ⟨s, hs, hv⟩ := h
    by_cases hg : is_generic_ty s "Vec" = true <;> simp [hg] at hv
    · exact Or.inr hv.symm
    · exact Or.inl hv.symm

/-- Any input that fails the unit test classifies as something other than
`Ty.Unit`. -/
theorem aux_classify_ne_unit (cfg : Bool) (t : SynType)
    (h : is_unit_ty t = false) :
    Ty.from_syn_ty cfg t = Ty.Unit → False := by
  intro hc
  rw [Ty.from_syn_ty] at hc
  simp only [h, Bool.false_eq_true, if_false] at hc
  cases hv : get_vec_ty cfg t Ty.Vec Ty.VecVec with
  | some vt =>
    rw [hv] at hc
    rcases aux_get_vec_ty_mem cfg t _ _ vt hv with h1 | h1 <;> simp [h1] at hc
  | none =>
    rw [hv] at hc
    cases ho : subty_if_name t "Option" with
    | none => rw [ho] at hc; exact absurd hc (by simp)
    | some subty =>
      rw [ho] at hc
      by_cases hoo : is_generic_ty subty "Option" = true
      · simp [hoo] at hc
      · simp only [hoo, Bool.false_eq_true, if_false] at hc
        cases hv2 : get_vec_ty cfg subty Ty.OptionVec Ty.OptionVecVec with
        | some vt =>
          rw [hv2] at hc
          rcases aux_get_vec_ty_mem cfg subty _ _ vt hv2 with h1 | h1 <;> simp [h1] at hc
        | none => rw [hv2] at hc; exact absurd hc (by simp)

theorem aux_inner_type_one (cfg : Bool) (t : SynType)
    (h : Ty.from_syn_ty cfg t = Ty.Vec ∨ Ty.from_syn_ty cfg t = Ty.Option) :
    inner_type cfg t = (sub_type t).getD t := by
  unfold inner_type
  rcases h with h | h <;> rw [h]

theorem aux_inner_type_two (cfg : Bool) (t : SynType)
    (h : Ty.from_syn_ty cfg t = Ty.OptionOption ∨ Ty.from_syn_ty cfg t = Ty.OptionVec ∨
      Ty.from_syn_ty cfg t = Ty.VecVec) :
    inner_type cfg t = ((sub_type t).bind sub_type).getD t := by
  unfold inner_type
  rcases h with h | h | h <;> rw [h]

theorem aux_inner_type_three (cfg : Bool) (t : SynType)
    (h : Ty.from_syn_ty cfg t = Ty.OptionVecVec) :
    inner_type cfg t = (((sub_type t).bind sub_type).bind sub_type).getD t := by
  unfold inner_type
  rw [h]

theorem aux_inner_type_keep (cfg : Bool) (t : SynType)
    (h : Ty.from_syn_ty cfg t = Ty.Unit ∨ Ty.from_syn_ty cfg t = Ty.Other) :
    inner_type cfg t = t := by
  unfold inner_type
  rcases h with h | h <;> rw [h]

theorem aux_sub_type_oWrap (x : SynType) : sub_type (oWrap x) = some x := rfl

theorem aux_sub_type_rWrap (x : SynType) : sub_type (rWrap x) = some x := rfl

/-- A two-argument generic path fails `subty_if` for every filter: the
`only_one` arity check refuses the argument list. -/
theorem aux_subty_if_two_args (name : String) (X Y : SynType) (f : PathSegment → Bool) :
    subty_if
      (SynType.path false false
        [PathSegment.mk name (PathArguments.angleBracketed
          [GenericArgument.type X, GenericArgument.type Y])]) f = Option.none := by
  unfold subty_if only_last_segment only_one
  cases hf : f (PathSegment.mk name (PathArguments.angleBracketed
      [GenericArgument.type X, GenericArgument.type Y])) <;>
    simp [Option.filter, hf, PathSegment.arguments, only_one]

/-- A two-segment path fails `only_last_segment`. -/
theorem aux_only_last_segment_two_segs (s1 s2 : PathSegment) :
    only_last_segment (SynType.path false false [s1, s2]) = Option.none := rfl

theorem aux_subty_if_of_only_last_none (t : SynType) (f : PathSegment → Bool)
    (h : only_last_segment t = Option.none) : subty_if t f = Option.none := by
  unfold subty_if
  rw [h]
  rfl

theorem aux_only_last_segment_groupN (n : Nat) (t : SynType) :
    only_last_segment (groupN n t) = only_last_segment t := by
  induction n with
  | zero => rfl
  | succ k ih => rw [groupN, aux_only_last_segment_group, ih]

/-- Any number of grouping nodes around the empty tuple classifies `Other`:
the unit test does not strip groups and the stripped form is no path. -/
theorem aux_classify_grouped_unit (cfg : Bool) (n : Nat) :
    Ty.from_syn_ty cfg (groupN (n + 1) (SynType.tuple [])) = Ty.Other := by
  have hseg : only_last_segment (groupN (n + 1) (SynType.tuple [])) = Option.none := by
    rw [aux_only_last_segment_groupN]
    rfl
  exact aux_classify_other cfg _ rfl
    (aux_subty_if_of_only_last_none _ _ hseg)
    (aux_subty_if_of_only_last_none _ _ hseg)

/-! The claim theorems. -/

/-- C1: the claim that the two `get_vec_ty` build variants produce identical
classifications is false; what holds is the amended relation: the default
(`not(feature = "unstable-v5")`) classification equals the `unstable-v5`
one with `VecVec` collapsed to `Vec` and `OptionVecVec` collapsed to
`OptionVec`, and the two agree everywhere else. -/
theorem c1_build_variants_relation (t : SynType) :
    Ty.from_syn_ty false t = collapseV5 (Ty.from_syn_ty true t) :=
  aux_default_eq_collapse_v5 t

/-- C1 counterexample: on `Vec<Vec<i32>>` the `unstable-v5` variant yields
`VecVec` while the default variant yields `Vec`, so the two configurations
do not produce identical classification outputs. -/
theorem c1_build_variants_cex :
    Ty.from_syn_ty true (rWrap (rWrap i32ex)) = Ty.VecVec ∧
    Ty.from_syn_ty false (rWrap (rWrap i32ex)) = Ty.Vec ∧
    ¬(Ty.from_syn_ty true (rWrap (rWrap i32ex)) =
        Ty.from_syn_ty false (rWrap (rWrap i32ex))) := by
  refine ⟨rfl, rfl, ?_⟩
  decide

/-- C2 (amended): for the `Option`/`Vec` wrapper names, `Option<X>`
classifies `Option` and unwraps once (for `X` matching neither wrapper),
`Option<Option<X>>` classifies `OptionOption` and unwraps twice,
`Option<Vec<X>>` classifies `OptionVec` and unwraps twice (for `X` not a
`Vec` wrapper) — all under both build configurations; `Option<Vec<Vec<X>>>`
classifies `OptionVecVec` and unwraps down to `X` only under the
`unstable-v5` configuration, while the default configuration classifies it
`OptionVec` and unwraps only two layers, to `Vec<X>`. -/
theorem c2_optional_wrapper_shapes (X : SynType) :
    (∀ cfg : Bool, is_generic_ty X "Option" = false → is_generic_ty X "Vec" = false →
      Ty.from_syn_ty cfg (oWrap X) = Ty.Option ∧ inner_type cfg (oWrap X) = X)
  ∧ (∀ cfg : Bool,
      Ty.from_syn_ty cfg (oWrap (oWrap X)) = Ty.OptionOption ∧
      inner_type cfg (oWrap (oWrap X)) = X)
  ∧ (∀ cfg : Bool, is_generic_ty X "Vec" = false →
      Ty.from_syn_ty cfg (oWrap (rWrap X)) = Ty.OptionVec ∧
      inner_type cfg (oWrap (rWrap X)) = X)
  ∧ (Ty.from_syn_ty true (oWrap (rWrap (rWrap X))) = Ty.OptionVecVec ∧
     inner_type true (oWrap (rWrap (rWrap X))) = X)
  ∧ (Ty.from_syn_ty false (oWrap (rWrap (rWrap X))) = Ty.OptionVec ∧
     inner_type false (oWrap (rWrap (rWrap X))) = rWrap X) := by
  refine ⟨?_, ?_, ?_, ⟨rfl, rfl⟩, ⟨rfl, rfl⟩⟩
  · intro cfg ho hv
    have hc := aux_classify_oWrap cfg X ho hv
    refine ⟨hc, ?_⟩
    rw [aux_inner_type_one cfg _ (Or.inr hc), aux_sub_type_oWrap]
    rfl
  · intro cfg
    cases cfg <;> exact ⟨rfl, rfl⟩
  · intro cfg hv
    have hc := aux_classify_oWrap_rWrap cfg X hv
    refine ⟨hc, ?_⟩
    rw [aux_inner_type_two cfg _ (Or.inr (Or.inl hc)), aux_sub_type_oWrap]
    rfl

/-- C2 counterexample: under the default configuration,
`Option<Vec<Vec<i32>>>` classifies `OptionVec`, not `OptionVecVec`, and
`inner_type` strips only two layers (yielding `Vec<i32>`). -/
theorem c2_optional_wrapper_cex :
    Ty.from_syn_ty false (oWrap (rWrap (rWrap i32ex))) = Ty.OptionVec ∧
    inner_type false (oWrap (rWrap (rWrap i32ex))) = rWrap i32ex ∧
    ¬(Ty.from_syn_ty false (oWrap (rWrap (rWrap i32ex))) = Ty.OptionVecVec) := by
  refine ⟨rfl, rfl, ?_⟩
  decide

/-- C3 (amended): `Vec<Vec<X>>` classifies `VecVec` with `inner_type`
stripping both layers only under the `unstable-v5` configuration; the
default configuration classifies it `Vec` and strips one layer, yielding
`Vec<X>`. `Vec<X>` for `X` not a `Vec` wrapper classifies `Vec` with
`inner_type` yielding `X` under both configurations. -/
theorem c3_repeated_wrapper_shapes (X : SynType) :
    (Ty.from_syn_ty true (rWrap (rWrap X)) = Ty.VecVec ∧
     inner_type true (rWrap (rWrap X)) = X)
  ∧ (Ty.from_syn_ty false (rWrap (rWrap X)) = Ty.Vec ∧
     inner_type false (rWrap (rWrap X)) = rWrap X)
  ∧ (∀ cfg : Bool, is_generic_ty X "Vec" = false →
      Ty.from_syn_ty cfg (rWrap X) = Ty.Vec ∧ inner_type cfg (rWrap X) = X) := by
  refine ⟨⟨rfl, rfl⟩, ⟨rfl, rfl⟩, ?_⟩
  intro cfg hv
  have hc := aux_classify_rWrap cfg X hv
  refine ⟨hc, ?_⟩
  rw [aux_inner_type_one cfg _ (Or.inl hc), aux_sub_type_rWrap]
  rfl

/-- C3 counterexample: under the default configuration `Vec<Vec<i32>>`
classifies `Vec` (not `VecVec`) and `inner_type` strips a single layer,
returning `Vec<i32>` rather than `i32`. -/
theorem c3_repeated_wrapper_cex :
    Ty.from_syn_ty false (rWrap (rWrap i32ex)) = Ty.Vec ∧
    inner_type false (rWrap (rWrap i32ex)) = rWrap i32ex ∧
    ¬(Ty.from_syn_ty false (rWrap (rWrap i32ex)) = Ty.VecVec) := by
  refine ⟨rfl, rfl, ?_⟩
  decide

/-- C4 (amended): grouping nodes are transparent to classification for
every type expression that is not syntactically the empty tuple: wrapping
any such `t` in `n + 1` grouping nodes classifies identically to `t`. The
empty tuple is the exception the original claim misses: the unit check
does not strip groups, so a group-wrapped unit classifies `Other` while
the bare unit classifies `Unit`. -/
theorem c4_grouping_transparency (cfg : Bool) (t : SynType) (n : Nat) :
    (is_unit_ty t = false →
      Ty.from_syn_ty cfg (groupN (n + 1) t) = Ty.from_syn_ty cfg t)
  ∧ (is_unit_ty t = true →
      Ty.from_syn_ty cfg (groupN (n + 1) t) = Ty.Other ∧
      Ty.from_syn_ty cfg t = Ty.Unit) := by
  constructor
  · intro h
    exact aux_from_syn_ty_groupN cfg (n + 1) t h
  · intro h
    have ht : t = SynType.tuple [] := (aux_is_unit_ty_iff t).mp h
    subst ht
    exact ⟨aux_classify_grouped_unit cfg n, rfl⟩

/-- C4 counterexample: one grouping node around the empty tuple changes the
classification from `Unit` to `Other`, so grouping is not transparent for
every type expression. -/
theorem c4_grouping_cex :
    Ty.from_syn_ty false (groupN 1 (SynType.tuple [])) = Ty.Other ∧
    Ty.from_syn_ty false (SynType.tuple []) = Ty.Unit ∧
    ¬(Ty.from_syn_ty false (groupN 1 (SynType.tuple [])) =
        Ty.from_syn_ty false (SynType.tuple [])) := by
  refine ⟨rfl, rfl, ?_⟩
  decide

/-- C5: the generic-wrapper test succeeds exactly on a (group-stripped)
single-segment path with no qself and no leading colon whose segment bears
the requested name and angle-bracketed arguments that are exactly one
type; consequently a two-argument generic of any name classifies `Other`,
and a two-segment path whose final segment is a well-formed wrapper
classifies `Other`, under both build configurations. -/
theorem c5_generic_wrapper_test_strictness (ty : SynType) (name : String) (sub : SynType) :
    (subty_if_name ty name = some sub ↔
      ∃ seg : PathSegment, stripGroups ty = SynType.path false false [seg] ∧
        seg.ident = name ∧
        seg.arguments = PathArguments.angleBracketed [GenericArgument.type sub])
  ∧ (∀ (X Y : SynType) (cfg : Bool),
      Ty.from_syn_ty cfg (SynType.path false false
        [PathSegment.mk name (PathArguments.angleBracketed
          [GenericArgument.type X, GenericArgument.type Y])]) = Ty.Other)
  ∧ (∀ (X : SynType) (cfg : Bool) (pre : String),
      Ty.from_syn_ty cfg (SynType.path false false
        [PathSegment.mk pre PathArguments.none,
         PathSegment.mk name (PathArguments.angleBracketed [GenericArgument.type X])])
        = Ty.Other) := by
  refine ⟨?_, ?_, ?_⟩
  · rw [subty_if_name, aux_subty_if_iff]
    simp only [aux_only_last_segment_iff, beq_iff_eq]
  · intro X Y cfg
    exact aux_classify_other cfg _ rfl
      (aux_subty_if_two_args name X Y _) (aux_subty_if_two_args name X Y _)
  · intro X cfg pre
    exact aux_classify_other cfg _ rfl
      (aux_subty_if_of_only_last_none _ _ (aux_only_last_segment_two_segs _ _))
      (aux_subty_if_of_only_last_none _ _ (aux_only_last_segment_two_segs _ _))

/-- C6: classification yields `Unit` exactly for the canonical empty-tuple
syntax, and a bare path named "Unit" with no generic arguments classifies
`Other`, under both build configurations. -/
theorem c6_unit_classification (cfg : Bool) (t : SynType) :
    (Ty.from_syn_ty cfg t = Ty.Unit ↔ t = SynType.tuple [])
  ∧ Ty.from_syn_ty cfg
      (SynType.path false false [PathSegment.mk "Unit" PathArguments.none]) = Ty.Other := by
  constructor
  · constructor
    · intro h
      cases hu : is_unit_ty t with
      | true => exact (aux_is_unit_ty_iff t).mp hu
      | false => exact (aux_classify_ne_unit cfg t hu h).elim
    · intro h
      subst h
      rfl
  · exact aux_classify_other cfg _ rfl rfl rfl

/-- C7: `inner_type` is total and never propagates a failure: on inputs
classified `Unit` or `Other` it returns the input unchanged, and for every
other classification it falls back to the unchanged input whenever the
unwrapping chain it would follow yields nothing. -/
theorem c7_inner_type_total_fallback (cfg : Bool) (t : SynType) :
    ((Ty.from_syn_ty cfg t = Ty.Unit ∨ Ty.from_syn_ty cfg t = Ty.Other) →
      inner_type cfg t = t)
  ∧ ((Ty.from_syn_ty cfg t = Ty.Vec ∨ Ty.from_syn_ty cfg t = Ty.Option) →
      sub_type t = Option.none → inner_type cfg t = t)
  ∧ ((Ty.from_syn_ty cfg t = Ty.OptionOption ∨ Ty.from_syn_ty cfg t = Ty.OptionVec ∨
        Ty.from_syn_ty cfg t = Ty.VecVec) →
      (sub_type t).bind sub_type = Option.none → inner_type cfg t = t)
  ∧ (Ty.from_syn_ty cfg t = Ty.OptionVecVec →
      ((sub_type t).bind sub_type).bind sub_type = Option.none →
      inner_type cfg t = t) := by
  refine ⟨?_, ?_, ?_, ?_⟩
  · exact aux_inner_type_keep cfg t
  · intro h hs
    rw [aux_inner_type_one cfg t h, hs]
    rfl
  · intro h hs
    rw [aux_inner_type_two cfg t h, hs]
    rfl
  · intro h hs
    rw [aux_inner_type_three cfg t h, hs]
    rfl

/-- C8: `is_simple_ty` holds exactly when the group-stripped expression is
a single-segment unqualified path with the exact identifier and no
generic arguments (`PathArguments::None`); it is false for the name with
angle-bracketed arguments (even an empty list), for a two-segment path
ending in the name, and for any qualified or leading-colon path. -/
theorem c8_is_simple_ty_characterization (ty : SynType) (name : String) :
    (is_simple_ty ty name = true ↔
      stripGroups ty = SynType.path false false [PathSegment.mk name PathArguments.none])
  ∧ (∀ X : SynType, is_simple_ty (wrap name X) name = false)
  ∧ (∀ args : List GenericArgument,
      is_simple_ty (SynType.path false false
        [PathSegment.mk name (PathArguments.angleBracketed args)]) name = false)
  ∧ (∀ pre : String,
      is_simple_ty (SynType.path false false
        [PathSegment.mk pre PathArguments.none, PathSegment.mk name PathArguments.none])
        name = false)
  ∧ (∀ (q l : Bool) (segs : List PathSegment), (q = true ∨ l = true) →
      is_simple_ty (SynType.path q l segs) name = false) := by
  refine ⟨?_, fun X => rfl, fun args => rfl, fun pre => rfl, ?_⟩
  · cases o : only_last_segment ty with
    | none =>
      simp [is_simple_ty, o, ← aux_only_last_segment_iff]
    | some seg =>
      cases seg with
      | mk id args =>
        cases args with
        | none =>
          simp [is_simple_ty, o, ← aux_only_last_segment_iff,
            PathSegment.arguments, PathSegment.ident, beq_iff_eq]
        | angleBracketed gargs =>
          simp [is_simple_ty, o, ← aux_only_last_segment_iff,
            PathSegment.arguments]
        | parenthesized =>
          simp [is_simple_ty, o, ← aux_only_last_segment_iff,
            PathSegment.arguments]
  · intro q l segs h
    rcases h with h | h
    · subst h
      rfl
    · subst h
      cases q <;> rfl

/-- C9: classification is a total function: for every build configuration,
every group-nesting depth and every type expression it returns exactly one
`Ty` value. Totality and termination hold by construction of the
embedding: every function of the development is a structurally recursive
(hence terminating) total Lean function, with no partiality anywhere. -/
theorem c9_classify_total (cfg : Bool) (n : Nat) (t : SynType) :
    ∃! sh : Ty, Ty.from_syn_ty cfg (groupN n t) = sh :=
  ⟨Ty.from_syn_ty cfg (groupN n t), rfl, fun _ hy => hy.symm⟩

/-- C10: the standalone one-level extraction `sub_type` is name-agnostic —
it succeeds exactly when the group-stripped input is a single-segment
unqualified path with exactly one angle-bracketed type argument, with no
condition on the segment identifier; in particular every name-filtered
match (`subty_if_name`) implies the name-agnostic one, and `sub_type`
extracts from `wrap name sub` for every name. -/
theorem c10_sub_type_name_agnostic (ty : SynType) (sub : SynType) :
    (sub_type ty = some sub ↔
      ∃ seg : PathSegment, only_last_segment ty = some seg ∧
        seg.arguments = PathArguments.angleBracketed [GenericArgument.type sub])
  ∧ (∀ name : String, subty_if_name ty name = some sub → sub_type ty = some sub)
  ∧ (∀ name : String, sub_type (wrap name sub) = some sub) := by
  refine ⟨?_, ?_, fun name => aux_sub_type_wrap name sub⟩
  · rw [sub_type, aux_subty_if_iff]
    simp
  · intro name h
    obtain ⟨seg, h1, h2, h3⟩ := (aux_subty_if_iff ty _ sub).mp h
    exact (aux_subty_if_iff ty _ sub).mpr ⟨seg, h1, rfl, h3⟩
